import Mathlib

/-!
Shallow embedding of the `betterLiyl/web3` repository's verifiable parts:

* `src/grammar/rust/src/9_data_structure.rs` — the `Queue`, `SkipList`
  and `BloomFilter` sketches;
* `src/projects/vote/voting/programs/voting/src/lib.rs` — the poll/vote
  program's instruction handlers;
* `src/projects/favorites/favorite/programs/favorite/src/lib.rs` — the
  favorites-storage program's instruction handlers;
* `src/projects/transfer/chain/programs/chain/src/lib.rs` — the wallet
  balance query instruction.

Rust `Vec<T>` is modelled as `List T` with `push` appending at the end
and `pop` removing the last element.  Machine integers (`u64`, `usize`)
are modelled as `Nat`, with an explicit `% 2 ^ 64` where the source code
can overflow; the `as i64` cast reinterprets the 64-bit pattern as a
signed value.  Indexing that can panic is modelled with `Option`
(`none` = panic), and fallible instruction handlers return `Except`.
Account mutation is modelled by explicit state passing: a handler takes
the accounts' previous contents and returns their new contents.
-/

namespace Web3

/-! ### `9_data_structure.rs`: Queue -/

/-- Rust `struct Queue<T> { data: Vec<T> }`. -/
structure Queue (α : Type) where
  data : List α

namespace Queue

/-- Constructor `Queue::new()` — empty backing vector. -/
def new : Queue α := ⟨[]⟩

/-- Method `enqueue` pushes the item onto the end of the backing vector
(`self.data.push(item)`). -/
def enqueue (q : Queue α) (item : α) : Queue α :=
  ⟨q.data ++ [item]⟩

/-- Method `dequeue` is `self.data.pop()`: it removes and returns the *last*
element of the backing vector, or returns `none` on an empty queue. -/
def dequeue (q : Queue α) : Option α × Queue α :=
  match q.data.getLast? with
  | none => (none, q)
  | some x => (some x, ⟨q.data.dropLast⟩)

end Queue

/-! ### `9_data_structure.rs`: SkipList -/

/-- Rust `struct SkipList<T: Ord> { data: Vec<T> }` — a single flat vector,
no levels. -/
structure SkipList (α : Type) where
  data : List α

namespace SkipList

/-- Constructor `SkipList::new()`. -/
def new : SkipList α := ⟨[]⟩

/-- Method `insert` is `self.data.push(item)`: append at the end, no ordering,
no level structure. -/
def insert (s : SkipList α) (item : α) : SkipList α :=
  ⟨s.data ++ [item]⟩

/-- Method `search` is `self.data.contains(item)`: a linear membership scan. -/
def search [BEq α] (s : SkipList α) (item : α) : Bool :=
  s.data.contains item

end SkipList

/-- Spec-side model for the refinement claim: a flat vector to which
`insert` appends and on which `search` is a linear membership scan. -/
def flatInsert (l : List α) (item : α) : List α := l ++ [item]

/-- Spec-side model of linear membership scan. -/
def flatSearch [BEq α] (l : List α) (item : α) : Bool := l.contains item

/-- Run a sequence of `SkipList::insert` operations from `SkipList::new()`. -/
def runInserts (xs : List α) : SkipList α :=
  xs.foldl SkipList.insert SkipList.new

/-- Run the same sequence against the spec-side flat-vector model. -/
def runFlatInserts (xs : List α) : List α :=
  xs.foldl flatInsert []

/-! ### `9_data_structure.rs`: BloomFilter -/

/-- Rust `struct BloomFilter { data: Vec<bool>, size: usize }`. -/
structure BloomFilter where
  data : List Bool
  size : Nat

namespace BloomFilter

/-- Constructor `BloomFilter::new()` returns `Self { data: Vec::new(), size: 1000 }`:
the `size` field is 1000 but the bit vector is empty. -/
def new : BloomFilter := ⟨[], 1000⟩

/-- Method `insert` computes `index = self.hash(item) % self.size` and executes
`self.data[index] = true`.  The `DefaultHasher` value of the item is
taken as the argument `h`; the indexing panics (`none`) when `index`
is out of bounds of the bit vector. -/
def insert (bf : BloomFilter) (h : Nat) : Option BloomFilter :=
  let index := h % bf.size
  if index < bf.data.length then
    some { bf with data := bf.data.set index true }
  else
    none

/-- Method `search` computes `index = self.hash(item) % self.size` and reads
`self.data[index]`; the read panics (`none`) when out of bounds. -/
def search (bf : BloomFilter) (h : Nat) : Option Bool :=
  let index := h % bf.size
  bf.data.get? index

/-- Method `init` executes `self.data = vec![false; size]`, leaving the `size`
field untouched. -/
def init (bf : BloomFilter) (n : Nat) : BloomFilter :=
  { bf with data := List.replicate n false }

end BloomFilter

/-! ### `projects/vote/voting/programs/voting/src/lib.rs` -/

/-- Width of the on-chain `u64` fields. -/
def U64_MOD : Nat := 2 ^ 64

/-- Rust's `as i64` cast on a `u64` value `v` (`v < 2 ^ 64`):
reinterpret the 64-bit pattern as a signed value. -/
def u64ToI64 (v : Nat) : Int :=
  if v < 2 ^ 63 then (v : Int) else (v : Int) - 2 ^ 64

/-- Account struct `Poll` (`#[account] pub struct Poll`) of the voting program. -/
structure Poll where
  poll_name : String
  poll_desc : String
  poll_vote_start : Nat
  poll_vote_end : Nat
  poll_vote_index : Nat

/-- Account struct `CandidateAccount` (`#[account]`) of the voting program. -/
structure CandidateAccount where
  candidate_name : String
  candidate_votes : Nat

/-- Error enum `VotingErrorCode` (`#[error_code]`). -/
inductive VotingErrorCode where
  | VotingNotStarted
  | VotingEnded
deriving DecidableEq

/-- Handler `initialize_poll`: writes `name`, `desc`, `start`, `end` into
the poll account, sets `poll_vote_index = 0`, and returns `Ok(())`.
`_prev` is the poll account's previous contents (relevant when
`init_if_needed` finds an existing account); `_poll_id` only feeds the
PDA seeds, not the handler body. -/
def initialize_poll (_poll_id : Nat) (start «end» : Nat)
    (name desc : String) (_prev : Poll) : Except VotingErrorCode Poll :=
  Except.ok
    { poll_name := name
      poll_desc := desc
      poll_vote_start := start
      poll_vote_end := «end»
      poll_vote_index := 0 }

/-- Handler `initialize_candidate`: writes `candidate` into the candidate
account's `candidate_name`, executes `poll_vote_index += 1` (u64
arithmetic) on the poll account, and returns `Ok(())`. -/
def initialize_candidate (_poll_id : Nat) (candidate : String)
    (poll : Poll) (cand : CandidateAccount) :
    Except VotingErrorCode (Poll × CandidateAccount) :=
  Except.ok
    ({ poll with poll_vote_index := (poll.poll_vote_index + 1) % U64_MOD },
     { cand with candidate_name := candidate })

/-- Handler `vote`: fetches `current_time = Clock::get()?.unix_timestamp`
(passed in as `now`), errors with `VotingEnded` when
`now > poll_vote_end as i64`, then with `VotingNotStarted` when
`now < poll_vote_start as i64`, otherwise executes
`candidate_votes += 1` (u64 arithmetic) and returns `Ok(())`.
On an error, the transaction aborts, so no account state changes. -/
def vote (now : Int) (_poll_id : Nat) (_candidate : String)
    (poll : Poll) (cand : CandidateAccount) :
    Except VotingErrorCode CandidateAccount :=
  if now > u64ToI64 poll.poll_vote_end then
    Except.error VotingErrorCode.VotingEnded
  else if now < u64ToI64 poll.poll_vote_start then
    Except.error VotingErrorCode.VotingNotStarted
  else
    Except.ok { cand with candidate_votes := (cand.candidate_votes + 1) % U64_MOD }

/-! ### `projects/favorites/favorite/programs/favorite/src/lib.rs` -/

/-- Account struct `Favorite` (`#[account]`). -/
structure Favorite where
  number : Nat
  color : String
  hobbies : List String
deriving DecidableEq

/-- Handler `initialize`: logs two messages, then
`favorites.set_inner(Favorite { number, color, hobbies })`, overwriting
the whole account, and returns `Ok(())`.  `_prev` is the account's
previous contents. -/
def favorite_initialize (number : Nat) (color : String)
    (hobbies : List String) (_prev : Favorite) : Except Unit Favorite :=
  Except.ok { number := number, color := color, hobbies := hobbies }

/-- Handler `update`: `favorites.set_inner(Favorite { number, color,
hobbies })` and `Ok(())`. -/
def favorite_update (number : Nat) (color : String)
    (hobbies : List String) (_prev : Favorite) : Except Unit Favorite :=
  Except.ok { number := number, color := color, hobbies := hobbies }

/-! ### `projects/transfer/chain/programs/chain/src/lib.rs` -/

/-- The wallet system account seen by `get_balance`: its address
(`Pubkey`, modelled as `Nat`) and its lamports balance. -/
structure WalletAccount where
  key : Nat
  lamports : Nat
deriving DecidableEq

/-- Event struct `BalanceEvent` (`#[event]`). -/
structure BalanceEvent where
  wallet : Nat
  lamports : Nat
deriving DecidableEq

/-- Handler `get_balance`: reads the wallet's lamports, logs one `msg!`
line, emits one `BalanceEvent { wallet: key, lamports }`, and returns
`Ok(())`.  The result carries the wallet account's new contents together
with the emitted log lines and events. -/
def get_balance (w : WalletAccount) :
    Except Unit (WalletAccount × List String × List BalanceEvent) :=
  Except.ok
    (w,
     ["Balance of " ++ toString w.key ++ ": " ++ toString w.lamports
        ++ " lamports"],
     [{ wallet := w.key, lamports := w.lamports }])

/-! ## Helper lemmas -/

/-- Folding `SkipList.insert` over a list appends it to the backing
vector in order. -/
lemma foldl_insert_data (xs : List α) (s : SkipList α) :
    (xs.foldl SkipList.insert s).data = s.data ++ xs := by
  induction xs generalizing s with
  | nil => simp
  | cons a as ih => simp [List.foldl_cons, ih, SkipList.insert]

/-- Folding `flatInsert` over a list appends it in order. -/
lemma foldl_flatInsert (xs l : List α) :
    (xs.foldl flatInsert l) = l ++ xs := by
  induction xs generalizing l with
  | nil => simp
  | cons a as ih => simp [List.foldl_cons, ih, flatInsert]

/-! ## Claim theorems -/

/-- C1: `BloomFilter::new()` returns `size = 1000` with an empty bit
vector, and on that state both `insert` and `search` index the `data`
vector out of bounds (panic, modelled as `none`) for every item hash:
`insert` is not total on the states `new()` produces. -/
theorem bloom_new_insert_panics (h : Nat) :
    BloomFilter.new.size = 1000 ∧ BloomFilter.new.data = [] ∧
    BloomFilter.new.insert h = none ∧ BloomFilter.new.search h = none := by
  refine ⟨rfl, rfl, ?_, ?_⟩ <;>
    simp [BloomFilter.new, BloomFilter.insert, BloomFilter.search]

/-- C2: the skip list is extensionally a flat vector: any sequence of
inserts from `new()` produces exactly the input sequence appended in
order (no sorting, no level structure), and `search x` is a linear
membership scan, true exactly when `x` was previously inserted. -/
theorem skiplist_is_linear_list {α : Type} [DecidableEq α]
    (xs : List α) (x : α) :
    (runInserts xs).data = runFlatInserts xs ∧
    runFlatInserts xs = xs ∧
    ((runInserts xs).search x = true ↔ x ∈ xs) := by
  have h1 : (runInserts xs).data = xs := by
    simp [runInserts, foldl_insert_data, SkipList.new]
  have h2 : runFlatInserts xs = xs := by
    simp [runFlatInserts, foldl_flatInsert]
  refine ⟨h1.trans h2.symm, h2, ?_⟩
  simp [SkipList.search, List.contains, List.elem_iff, h1]

/-- C2 witness at a concrete unsorted sequence. -/
theorem skiplist_is_linear_list_witness :
    (runInserts [3, 1, 2]).data = runFlatInserts [3, 1, 2] ∧
    runFlatInserts [3, 1, 2] = [3, 1, 2] ∧
    ((runInserts [3, 1, 2]).search 1 = true ↔ 1 ∈ [3, 1, 2]) :=
  skiplist_is_linear_list [3, 1, 2] 1

/-- C4: `enqueue(x)` followed by `dequeue()` returns `Some(x)` and
restores the queue's prior state — `dequeue` is `Vec::pop`, removing the
most recently enqueued element (LIFO), and it returns `None` exactly
when the queue is empty. -/
theorem queue_enqueue_dequeue {α : Type} (q : Queue α) (x : α) :
    (q.enqueue x).dequeue = (some x, q) ∧
    (q.dequeue.1 = none ↔ q.data = []) := by
  obtain ⟨data⟩ := q
  constructor
  · simp [Queue.enqueue, Queue.dequeue, List.getLast?_concat,
      List.dropLast_concat]
  · cases hl : data.getLast? with
    | none =>
      have hnil : data = [] := List.getLast?_eq_none_iff.mp hl
      simp [Queue.dequeue, hl, hnil]
    | some b =>
      have hne : data ≠ [] := by
        intro e
        subst e
        simp at hl
      simp [Queue.dequeue, hl, hne]

/-- C4 witness at a concrete queue. -/
theorem queue_enqueue_dequeue_witness :
    ((Queue.enqueue ⟨[1, 2]⟩ 9).dequeue = (some 9, (⟨[1, 2]⟩ : Queue Nat)) ∧
     ((⟨[1, 2]⟩ : Queue Nat).dequeue.1 = none ↔
        (⟨[1, 2]⟩ : Queue Nat).data = [])) :=
  queue_enqueue_dequeue ⟨[1, 2]⟩ 9

/-- C9: `init(n)` replaces the bit vector by `n` false bits and leaves
`size` at the constructor's 1000, so `insert`/`search` keep reducing
hashes modulo 1000 whatever `n` was: for `n < 1000` some insert still
indexes out of bounds, and on a size-1000 state `insert` never touches
an index at or beyond 1000. -/
theorem bloom_init_keeps_size (n : Nat) :
    (BloomFilter.new.init n).size = 1000 ∧
    (BloomFilter.new.init n).data = List.replicate n false ∧
    (n < 1000 → ∃ h, (BloomFilter.new.init n).insert h = none) ∧
    (∀ h bf', (BloomFilter.new.init n).insert h = some bf' →
      ∀ i, 1000 ≤ i →
        bf'.data.get? i = (BloomFilter.new.init n).data.get? i) := by
  refine ⟨rfl, rfl, ?_, ?_⟩
  · intro hn
    refine ⟨999, ?_⟩
    have hlen : (BloomFilter.new.init n).data.length = n := by
      simp [BloomFilter.new, BloomFilter.init]
    simp only [BloomFilter.insert, BloomFilter.new, BloomFilter.init]
    have h999 : 999 % 1000 = 999 := by norm_num
    rw [if_neg]
    simp only [h999, List.length_replicate]
    omega
  · intro h bf' hins i hi
    simp only [BloomFilter.insert] at hins
    split at hins
    · cases hins
      have hne : h % (BloomFilter.new.init n).size ≠ i := by
        have : h % (BloomFilter.new.init n).size < 1000 := by
          have : (BloomFilter.new.init n).size = 1000 := rfl
          rw [this]
          exact Nat.mod_lt _ (by norm_num)
        omega
      simp only [List.get?_eq_getElem?]
      rw [List.getElem?_set_ne hne]
    · cases hins

/-- C9 witness: with `init(500)` the size stays 1000 and hash 999 still
indexes out of bounds. -/
theorem bloom_init_keeps_size_witness :
    (BloomFilter.new.init 500).size = 1000 ∧
    (∃ h, (BloomFilter.new.init 500).insert h = none) :=
  ⟨(bloom_init_keeps_size 500).1,
   (bloom_init_keeps_size 500).2.2.1 (by norm_num)⟩

/-- C10: on any state whose bit vector length equals its `size` field
(and the size is positive, as after `new()` then `init(1000)`), `insert`
succeeds, `search` of the same item then returns true, the length
invariant is preserved, and `insert` never clears a bit: any item whose
`search` was true stays true — no false negatives. -/
theorem bloom_no_false_negative (bf : BloomFilter) (h : Nat)
    (hlen : bf.data.length = bf.size) (hpos : 0 < bf.size) :
    ∃ bf', bf.insert h = some bf' ∧
      bf'.search h = some true ∧
      bf'.data.length = bf'.size ∧
      ∀ h2, bf.search h2 = some true → bf'.search h2 = some true := by
  have hidx : h % bf.size < bf.data.length := by
    rw [hlen]; exact Nat.mod_lt _ hpos
  refine ⟨{ bf with data := bf.data.set (h % bf.size) true },
    ?_, ?_, ?_, ?_⟩
  · simp only [BloomFilter.insert]
    rw [if_pos hidx]
  · simp only [BloomFilter.search, List.get?_eq_getElem?]
    exact List.getElem?_set_eq_of_lt true hidx
  · simpa using hlen
  · intro h2 hsearch
    simp only [BloomFilter.search, List.get?_eq_getElem?] at hsearch ⊢
    by_cases heq : h % bf.size = h2 % bf.size
    · rw [← heq]
      exact List.getElem?_set_eq_of_lt true hidx
    · rw [List.getElem?_set_ne heq]
      exact hsearch

/-- C10 witness on the state built in `main`: `new()` then `init(1000)`,
inserting the item with hash 42. -/
theorem bloom_no_false_negative_witness :
    ∃ bf', (BloomFilter.new.init 1000).insert 42 = some bf' ∧
      bf'.search 42 = some true ∧
      bf'.data.length = bf'.size ∧
      ∀ h2, (BloomFilter.new.init 1000).search h2 = some true →
        bf'.search h2 = some true :=
  bloom_no_false_negative (BloomFilter.new.init 1000) 42
    (by simp only [BloomFilter.new, BloomFilter.init, List.length_replicate])
    (by simp only [BloomFilter.new, BloomFilter.init]; norm_num)

/-- C3: `vote` returns `VotingEnded` when the clock timestamp is
strictly above `poll_vote_end as i64`; otherwise it returns
`VotingNotStarted` when the timestamp is strictly below
`poll_vote_start as i64` (the end check runs first); otherwise it
increments `candidate_votes` (u64, hence modulo `2 ^ 64`, which is an
increment by exactly 1 whenever no overflow occurs) and returns `Ok`.
An error aborts the transaction, leaving `candidate_votes` unchanged. -/
theorem vote_checks_and_increment (now : Int) (pid : Nat) (c : String)
    (poll : Poll) (cand : CandidateAccount) :
    (u64ToI64 poll.poll_vote_end < now →
       vote now pid c poll cand = Except.error VotingErrorCode.VotingEnded) ∧
    (now ≤ u64ToI64 poll.poll_vote_end →
       now < u64ToI64 poll.poll_vote_start →
       vote now pid c poll cand =
         Except.error VotingErrorCode.VotingNotStarted) ∧
    (now ≤ u64ToI64 poll.poll_vote_end →
       u64ToI64 poll.poll_vote_start ≤ now →
       vote now pid c poll cand =
         Except.ok { cand with
           candidate_votes := (cand.candidate_votes + 1) % U64_MOD }) ∧
    (cand.candidate_votes + 1 < U64_MOD →
       (cand.candidate_votes + 1) % U64_MOD = cand.candidate_votes + 1) := by
  refine ⟨?_, ?_, ?_, fun hov => Nat.mod_eq_of_lt hov⟩
  · intro hend
    simp only [vote]
    rw [if_pos hend]
  · intro hend hstart
    simp only [vote]
    rw [if_neg (not_lt.mpr hend), if_pos hstart]
  · intro hend hstart
    simp only [vote]
    rw [if_neg (not_lt.mpr hend), if_neg (not_lt.mpr hstart)]

/-- C3 witness: a vote at timestamp 5 inside the window `[0, 10]`. -/
theorem vote_checks_and_increment_witness :
    vote 5 0 "a" ⟨"p", "d", 0, 10, 0⟩ ⟨"a", 0⟩ =
      Except.ok ⟨"a", (0 + 1) % U64_MOD⟩ :=
  (vote_checks_and_increment 5 0 "a" ⟨"p", "d", 0, 10, 0⟩ ⟨"a", 0⟩).2.2.1
    (by norm_num [u64ToI64]) (by norm_num [u64ToI64])

/-- C5: the favorites program's `initialize` and `update` handlers
perform the same state update: each sets the `Favorite` account to
exactly `{number, color, hobbies}` regardless of its previous contents,
and each always returns `Ok`. -/
theorem favorite_initialize_update_identical (number : Nat)
    (color : String) (hobbies : List String) (prev prev' : Favorite) :
    favorite_initialize number color hobbies prev =
      Except.ok ⟨number, color, hobbies⟩ ∧
    favorite_update number color hobbies prev =
      Except.ok ⟨number, color, hobbies⟩ ∧
    favorite_initialize number color hobbies prev =
      favorite_update number color hobbies prev' :=
  ⟨rfl, rfl, rfl⟩

/-- C6: `initialize_poll` writes `name`, `desc`, `start`, `end` into the
poll account, resets `poll_vote_index` to 0 whatever the previous
contents were, ignores `_poll_id` in the handler body, and always
returns `Ok`. -/
theorem initialize_poll_resets (pid pid' start «end» : Nat)
    (name desc : String) (prev prev' : Poll) :
    initialize_poll pid start «end» name desc prev =
      Except.ok ⟨name, desc, start, «end», 0⟩ ∧
    initialize_poll pid start «end» name desc prev =
      initialize_poll pid' start «end» name desc prev' :=
  ⟨rfl, rfl⟩

/-- C7: `initialize_candidate` sets the candidate account's
`candidate_name`, leaves `candidate_votes` untouched, bumps the poll's
`poll_vote_index` by one (u64 arithmetic, exactly 1 whenever no overflow
occurs) while preserving every other poll field, and always returns
`Ok`. -/
theorem initialize_candidate_increments (pid : Nat) (candidate : String)
    (poll : Poll) (cand : CandidateAccount) :
    initialize_candidate pid candidate poll cand =
      Except.ok
        ({ poll with poll_vote_index := (poll.poll_vote_index + 1) % U64_MOD },
         { cand with candidate_name := candidate }) ∧
    (poll.poll_vote_index + 1 < U64_MOD →
       (poll.poll_vote_index + 1) % U64_MOD = poll.poll_vote_index + 1) :=
  ⟨rfl, fun hov => Nat.mod_eq_of_lt hov⟩

/-- C7 witness at a concrete poll with `poll_vote_index = 3`. -/
theorem initialize_candidate_increments_witness :
    initialize_candidate 0 "a" ⟨"p", "d", 1, 2, 3⟩ ⟨"x", 7⟩ =
      Except.ok (⟨"p", "d", 1, 2, (3 + 1) % U64_MOD⟩, ⟨"a", 7⟩) ∧
    (3 + 1) % U64_MOD = 3 + 1 :=
  ⟨(initialize_candidate_increments 0 "a" ⟨"p", "d", 1, 2, 3⟩ ⟨"x", 7⟩).1,
   (initialize_candidate_increments 0 "a" ⟨"p", "d", 1, 2, 3⟩ ⟨"x", 7⟩).2
     (by norm_num [U64_MOD])⟩

/-- C8: `get_balance` modifies no account state: it always returns `Ok`,
hands back the wallet account unchanged, and its only effects are one
log line and one `BalanceEvent` whose `wallet` field is the queried
account's key and whose `lamports` field is that account's current
balance. -/
theorem get_balance_pure (w : WalletAccount) :
    get_balance w =
      Except.ok
        (w,
         ["Balance of " ++ toString w.key ++ ": " ++ toString w.lamports
            ++ " lamports"],
         [⟨w.key, w.lamports⟩]) :=
  rfl

end Web3
